import Mathlib

/-!
Verification of the contact-book program `src/main.py` (command-line
assistant storing records with name, phones and birthday).

The Python code is shallowly embedded:
* Python strings are Lean `String`s (sequences of characters; the program
  only ever manipulates them at the character level, and `str.isdigit` is
  modelled on the ASCII range, where it coincides with the decimal-digit
  test).
* `datetime.date` is a `(year, month, day)` triple; CPython's field
  validation (`_check_date_fields`), proleptic-Gregorian ordinal
  (`toordinal`), lexicographic comparison and day subtraction are embedded
  explicitly.
* Code that can raise is embedded in `Except PyErr`; the `input_error`
  decorator becomes a total function on `Except PyErr String`.
* `AddressBook.data` (a `dict` keyed by record name, iterated in insertion
  order, keys unique) is an insertion-ordered list of records; lookup and
  deletion act on the first (unique) matching key.
-/

namespace Contacts

/-- The Python exception kinds the program can raise or catch:
`ValueError` (with its message), `KeyError`, `IndexError`, and the
`AttributeError` produced by accessing a missing attribute. -/
inductive PyErr where
  | valueError (msg : String)
  | keyError
  | indexError
  | attributeError
deriving DecidableEq, Repr

/-! ### Decimal digits -/

/-- The decimal digit character for `n ≤ 9` (used by zero-padded
`strftime` rendering; the wildcard case is never reached by callers). -/
def digitChar : Nat → Char
  | 0 => '0' | 1 => '1' | 2 => '2' | 3 => '3' | 4 => '4'
  | 5 => '5' | 6 => '6' | 7 => '7' | 8 => '8' | 9 => '9'
  | _ => '*'

/-- The numeric value of an ASCII decimal digit character, `none`
otherwise (the character class `\d` of `_strptime`'s regular
expressions). -/
def toDigit : Char → Option Nat
  | '0' => .some 0 | '1' => .some 1 | '2' => .some 2 | '3' => .some 3
  | '4' => .some 4 | '5' => .some 5 | '6' => .some 6 | '7' => .some 7
  | '8' => .some 8 | '9' => .some 9
  | _ => .none

/-- Whether a character is an ASCII decimal digit. -/
def isDigitChar (c : Char) : Bool := (toDigit c).isSome

/-- Numeric value of a digit string read left to right (non-digits
count 0; only applied to all-digit strings). -/
def digitsVal (xs : List Char) : Nat :=
  xs.foldl (fun a c => 10 * a + (toDigit c).getD 0) 0

/-! ### Dates (embedding of `datetime.date`) -/

/-- A calendar date as CPython's `datetime.date` stores it: year, month
and day fields. Validity (`1 ≤ year ≤ 9999`, month in range, day in
range for the month) is checked at construction by `mkDate`. -/
structure Date where
  year : Nat
  month : Nat
  day : Nat
deriving DecidableEq, Repr

/-- Gregorian leap-year rule (CPython `datetime._is_leap`). -/
def isLeap (y : Nat) : Bool := y % 4 == 0 && (y % 100 != 0 || y % 400 == 0)

/-- Days in a month (CPython `_days_in_month`); months outside 1..12 are
rejected before this is consulted. -/
def daysInMonth (y m : Nat) : Nat :=
  if m = 2 then (if isLeap y then 29 else 28)
  else if m = 4 ∨ m = 6 ∨ m = 9 ∨ m = 11 then 30
  else 31

/-- Days in year `y` before month `m` (CPython `_days_before_month`):
cumulative month lengths plus the leap-day after February. -/
def daysBeforeMonth (y m : Nat) : Nat :=
  (match m with
   | 1 => 0 | 2 => 31 | 3 => 59 | 4 => 90 | 5 => 120 | 6 => 151
   | 7 => 181 | 8 => 212 | 9 => 243 | 10 => 273 | 11 => 304 | _ => 334)
  + (if 2 < m ∧ isLeap y then 1 else 0)

/-- Proleptic-Gregorian ordinal of a date (CPython `date.toordinal`):
0001-01-01 is day 1. -/
def toordinal (d : Date) : Nat :=
  365 * (d.year - 1) + (d.year - 1) / 4 - (d.year - 1) / 100
    + (d.year - 1) / 400 + daysBeforeMonth d.year d.month + d.day

/-- Python `date` comparison: lexicographic on (year, month, day). -/
def dateLT (a b : Date) : Bool :=
  a.year < b.year
    || (a.year == b.year
        && (a.month < b.month || (a.month == b.month && a.day < b.day)))

/-- `(a - b).days` for Python dates: difference of ordinals. -/
def dateSub (a b : Date) : Int := (toordinal a : Int) - (toordinal b : Int)

/-- `datetime.date(y, m, d)` (also `date.replace`): CPython
`_check_date_fields` checks year, then month, then day, raising
`ValueError` (CPython interpolates the offending year into the first
message; the constant text is kept here). -/
def mkDate (y m d : Nat) : Except PyErr Date :=
  if y < 1 ∨ 9999 < y then .error (.valueError "year is out of range")
  else if m < 1 ∨ 12 < m then .error (.valueError "month must be in 1..12")
  else if d < 1 ∨ daysInMonth y m < d then
    .error (.valueError "day is out of range for month")
  else .ok ⟨y, m, d⟩

/-- The invariant `datetime.date` maintains on its fields. -/
def isValidDate (dt : Date) : Prop :=
  1 ≤ dt.year ∧ dt.year ≤ 9999 ∧ 1 ≤ dt.month ∧ dt.month ≤ 12
    ∧ 1 ≤ dt.day ∧ dt.day ≤ daysInMonth dt.year dt.month

instance (dt : Date) : Decidable (isValidDate dt) := by
  unfold isValidDate; infer_instance

/-- Zero-padded two-digit rendering (`%d`, `%m`, also the month/day part
of `%Y-%m-%d`); arguments are at most 31 so two digits suffice. -/
def pad2 (n : Nat) : List Char := [digitChar (n / 10), digitChar (n % 10)]

/-- Zero-padded four-digit rendering of a year (`%Y`; years are at most
9999). -/
def pad4 (n : Nat) : List Char :=
  [digitChar (n / 1000), digitChar (n / 100 % 10),
   digitChar (n / 10 % 10), digitChar (n % 10)]

/-- `date.strftime('%Y-%m-%d')`. -/
def formatYMD (d : Date) : String :=
  String.mk (pad4 d.year ++ '-' :: (pad2 d.month ++ '-' :: pad2 d.day))

/-! ### Phone (`class Phone(Field)`) -/

/-- `Phone.is_valid`: `len(phone) == 10 and phone.isdigit()` (on ASCII
strings `str.isdigit` is exactly the decimal-digit test). -/
def phone_is_valid (s : String) : Bool :=
  s.data.length == 10 && s.data.all isDigitChar

/-- `Phone.__init__`: raises `ValueError` unless `is_valid`; the stored
(and rendered) value is the input string itself. -/
def makePhone (s : String) : Except PyErr String :=
  if phone_is_valid s then .ok s
  else .error (.valueError "Phone number must be 10 digits")

/-! ### Birthday (`class Birthday(Field)`)

`datetime.strptime(value, '%d.%m.%Y')` matches the whole input against
the `_strptime` regular expression
`(3[01]|[12]\d|0[1-9]|[1-9]) \. (1[0-2]|0[1-9]|[1-9]) \. (\d\d\d\d)`
(spaces added for readability) and then builds a `datetime` from the
captured fields, which re-validates the day against the month.  Since the
day/month/year alternatives match only digit characters, a string matches
iff it splits at the dots into exactly three dot-free fields, each
matching its alternative; the alternatives for `%d` accept exactly the
one-digit values 1..9 and two-digit values 01..31, and those for `%m` the
one-digit values 1..9 and two-digit values 01..12. -/

/-- Split a character list at every `'.'` (the literal separators of the
`%d.%m.%Y` pattern). -/
def splitOnDot : List Char → List (List Char)
  | [] => [[]]
  | c :: cs =>
    if c = '.' then [] :: splitOnDot cs
    else
      match splitOnDot cs with
      | [] => [[c]]
      | f :: rest => (c :: f) :: rest

/-- The `%d` field: one digit valued 1..9, or two digits valued 01..31
(the regex alternatives `3[01]|[12]\d|0[1-9]|[1-9]`). -/
def dayVal : List Char → Option Nat
  | [c] => match toDigit c with
    | some v => if 1 ≤ v then some v else none
    | none => none
  | [c1, c2] => match toDigit c1, toDigit c2 with
    | some a, some b =>
      let v := 10 * a + b
      if 1 ≤ v ∧ v ≤ 31 then some v else none
    | _, _ => none
  | _ => none

/-- The `%m` field: one digit valued 1..9, or two digits valued 01..12
(the regex alternatives `1[0-2]|0[1-9]|[1-9]`). -/
def monthVal : List Char → Option Nat
  | [c] => match toDigit c with
    | some v => if 1 ≤ v then some v else none
    | none => none
  | [c1, c2] => match toDigit c1, toDigit c2 with
    | some a, some b =>
      let v := 10 * a + b
      if 1 ≤ v ∧ v ≤ 12 then some v else none
    | _, _ => none
  | _ => none

/-- The `%Y` field: exactly four digits (`\d\d\d\d`). -/
def yearVal : List Char → Option Nat
  | [c1, c2, c3, c4] =>
    match toDigit c1, toDigit c2, toDigit c3, toDigit c4 with
    | some a, some b, some c, some d =>
      some (1000 * a + 100 * b + 10 * c + d)
    | _, _, _, _ => none
  | _ => none

/-- `Birthday.__init__`: `datetime.strptime(value, '%d.%m.%Y').date()`;
any `ValueError` (pattern mismatch or invalid calendar date) is re-raised
as `ValueError("Invalid date format. Use DD.MM.YYYY")`. -/
def makeBirthday (s : String) : Except PyErr Date :=
  match splitOnDot s.data with
  | [f1, f2, f3] =>
    match dayVal f1, monthVal f2, yearVal f3 with
    | some d, some m, some y =>
      match mkDate y m d with
      | .ok dt => .ok dt
      | .error _ => .error (.valueError "Invalid date format. Use DD.MM.YYYY")
    | _, _, _ => .error (.valueError "Invalid date format. Use DD.MM.YYYY")
  | _ => .error (.valueError "Invalid date format. Use DD.MM.YYYY")

/-- `Birthday.__str__`: `self.value.strftime('%d.%m.%Y')` with zero-padded
fields. -/
def renderBirthday (d : Date) : String :=
  String.mk (pad2 d.day ++ '.' :: (pad2 d.month ++ '.' :: pad4 d.year))

/-! ### Record (`class Record`) -/

/-- One contact: the validated name string, the phone values in list
order (each `Phone.value`), and the optional stored birthday date. -/
structure Record where
  name : String
  phones : List String
  birthday : Option Date
deriving DecidableEq, Repr

/-- `Record.__init__`: `Name(name)` raises `ValueError` on an empty
string; phones start empty and birthday absent. -/
def mkRecord (name : String) : Except PyErr Record :=
  if name = "" then .error (.valueError "Name is a mandatory field")
  else .ok ⟨name, [], none⟩

/-- `Record.add_phone`: validate through `Phone` and append. -/
def add_phone (phones : List String) (s : String) : Except PyErr (List String) :=
  match makePhone s with
  | .ok p => .ok (phones ++ [p])
  | .error e => .error e

/-- `Record.remove_phone`: `[p for p in self.phones if p.value != phone]`. -/
def remove_phone (phones : List String) (s : String) : List String :=
  phones.filter (fun p => p ≠ s)

/-- `Record.edit_phone`: scan in order; at the first phone equal to
`old_phone`, overwrite it with `Phone(new_phone)` (which may raise) and
return; if the scan finds no match the list is returned unchanged. -/
def edit_phone (phones : List String) (old_phone new_phone : String) :
    Except PyErr (List String) :=
  match phones with
  | [] => .ok []
  | p :: ps =>
    if p = old_phone then
      match makePhone new_phone with
      | .ok q => .ok (q :: ps)
      | .error e => .error e
    else
      match edit_phone ps old_phone new_phone with
      | .ok ps' => .ok (p :: ps')
      | .error e => .error e

/-- `Record.find_phone`: first phone equal to `phone`, else `None`. -/
def find_phone (phones : List String) (s : String) : Option String :=
  phones.find? (fun p => p == s)

/-- Every stored phone value is a valid 10-digit string. -/
def PhonesInv (phones : List String) : Prop :=
  ∀ p ∈ phones, phone_is_valid p = true

instance (phones : List String) : Decidable (PhonesInv phones) := by
  unfold PhonesInv; infer_instance

/-! ### AddressBook (`class AddressBook(UserDict)`)

The `dict` keyed by `record.name.value` is embedded as the list of its
records in insertion order; keys are unique, so lookup and deletion act
on the first matching name. -/

/-- The book: records in dict-insertion order. -/
abbrev Book := List Record

/-- `AddressBook.find`: `self.data.get(name)`. -/
def bookFind (book : Book) (name : String) : Option Record :=
  book.find? (fun r => r.name == name)

/-- `AddressBook.delete`: `if name in self.data: del self.data[name]`. -/
def bookDelete (book : Book) (name : String) : Book :=
  if book.any (fun r => r.name == name) then
    book.eraseP (fun r => r.name == name)
  else book

/-- The body of `get_upcoming_birthdays`'s loop for one record:
`birthday_this_year = record.birthday.value.replace(year=today.year)`,
shifted to `today.year + 1` when it fell before `today`, then the
inclusive window test `0 <= (birthday_this_year - today).days <= days`.
Either `replace` can raise `ValueError`.  Returns the entry to append,
if any. -/
def processRecord (today : Date) (days : Nat) (r : Record) :
    Except PyErr (Option (String × String)) :=
  match r.birthday with
  | none => .ok none
  | some b =>
    match mkDate today.year b.month b.day with
    | .error e => .error e
    | .ok bty =>
      match (if dateLT bty today then mkDate (today.year + 1) bty.month bty.day
             else .ok bty) with
      | .error e => .error e
      | .ok occ =>
        if 0 ≤ dateSub occ today ∧ dateSub occ today ≤ (days : Int) then
          .ok (some (r.name, formatYMD occ))
        else .ok none

/-- `AddressBook.get_upcoming_birthdays(days=7)`: iterate the records in
order, appending the qualifying entries; an exception at any record
aborts the whole call.  `today` (`date.today()` in the source) is passed
explicitly. -/
def get_upcoming_birthdays (book : Book) (today : Date) (days : Nat) :
    Except PyErr (List (String × String)) :=
  match book with
  | [] => .ok []
  | r :: rest =>
    match processRecord today days r with
    | .error e => .error e
    | .ok entry =>
      match get_upcoming_birthdays rest today days with
      | .error e => .error e
      | .ok acc =>
        .ok (match entry with
             | some x => x :: acc
             | none => acc)

/-! Specification-side description of the birthday query, written from
the spec's words: for each record with a birthday take this year's
occurrence of its month/day, shifted to next year's occurrence if it
fell before today; keep the record iff the day-difference from today is
between 0 and the window inclusive; keep the book's order; format the
date `YYYY-MM-DD`. -/

/-- One record's entry per the spec's words (total: occurrences are
formed directly from the month/day fields). -/
def upcomingEntrySpec (today : Date) (w : Nat) (r : Record) :
    Option (String × String) :=
  match r.birthday with
  | none => none
  | some b =>
    let occThis : Date := ⟨today.year, b.month, b.day⟩
    let occ : Date :=
      if dateLT occThis today then ⟨today.year + 1, b.month, b.day⟩ else occThis
    if 0 ≤ dateSub occ today ∧ dateSub occ today ≤ (w : Int) then
      some (r.name, formatYMD occ)
    else none

/-- The whole query per the spec's words. -/
def upcomingBirthdaysSpec (book : Book) (today : Date) (w : Nat) :
    List (String × String) :=
  book.filterMap (upcomingEntrySpec today w)

/-! ### Command handlers (`change_contact` and `input_error`) -/

/-- The `for phone in record.phones` loop of `change_contact`: at the
first phone equal to `old_phone` the handler evaluates
`record.phones.remove_phone(phone)` — but `record.phones` is a plain
Python `list`, which has no `remove_phone` attribute, so this raises
`AttributeError` before any mutation; if no phone matches, the loop falls
through to the "does not have" message. -/
def changeLoop (phones : List String) (old_phone name : String) :
    Except PyErr String :=
  match phones with
  | [] =>
    .ok ("The contact " ++ name ++ " does not have the phone number "
         ++ old_phone ++ ".")
  | p :: ps =>
    if p = old_phone then .error .attributeError
    else changeLoop ps old_phone name

/-- `change_contact(args, book)` (body inside the decorator): guard on
fewer than three arguments, unpack exactly three (more raise
`ValueError` from tuple unpacking), look the name up, and run the
phone-replacement loop. -/
def change_contact (args : List String) (book : Book) : Except PyErr String :=
  if args.length < 3 then
    .ok "Give me name, old phone number, and new phone number please."
  else
    match args with
    | [name, old_phone, _new_phone] =>
      match bookFind book name with
      | some record => changeLoop record.phones old_phone name
      | none =>
        .ok ("There are no contacts with the name " ++ name
             ++ ". Type 'add' to add a new contact.")
    | _ => .error (.valueError "too many values to unpack (expected 3)")

/-- The `input_error` decorator: catches `ValueError` (returning its
message), `KeyError` and `IndexError`; every other exception (such as
`AttributeError`) propagates. -/
def inputError (r : Except PyErr String) : Except PyErr String :=
  match r with
  | .error (.valueError msg) => .ok msg
  | .error .keyError => .ok "Key Error"
  | .error .indexError => .ok "Please enter the name."
  | other => other

/-! ### Specification-side definitions (written from the spec's words,
for comparison with the embedded code) -/

/-- The ten decimal digit characters. -/
def decimalDigits : List Char :=
  ['0', '1', '2', '3', '4', '5', '6', '7', '8', '9']

/-- A day field per the amended parsing rule: an all-digit string, one
digit denoting 1..9 or two digits denoting 1..31, with value `v`. -/
def dayField (xs : List Char) (v : Nat) : Prop :=
  (∀ c ∈ xs, isDigitChar c = true) ∧ digitsVal xs = v ∧
    ((xs.length = 1 ∧ 1 ≤ v ∧ v ≤ 9) ∨ (xs.length = 2 ∧ 1 ≤ v ∧ v ≤ 31))

/-- A month field per the amended parsing rule: an all-digit string, one
digit denoting 1..9 or two digits denoting 1..12, with value `v`. -/
def monthField (xs : List Char) (v : Nat) : Prop :=
  (∀ c ∈ xs, isDigitChar c = true) ∧ digitsVal xs = v ∧
    ((xs.length = 1 ∧ 1 ≤ v ∧ v ≤ 9) ∨ (xs.length = 2 ∧ 1 ≤ v ∧ v ≤ 12))

/-- A year field: exactly four digits with value `v`. -/
def yearField (xs : List Char) (v : Nat) : Prop :=
  (∀ c ∈ xs, isDigitChar c = true) ∧ xs.length = 4 ∧ digitsVal xs = v

/-- The strings `Birthday` accepts, per the amended claim: a day field, a
month field and a four-digit year separated by single dots, denoting a
real calendar date. -/
def birthdayAccepts (s : String) : Prop :=
  ∃ ds ms ys d m y,
    s.data = ds ++ '.' :: (ms ++ '.' :: ys) ∧
    dayField ds d ∧ monthField ms m ∧ yearField ys y ∧
    isValidDate ⟨y, m, d⟩

/-- Joining fields back with dots (inverse of `splitOnDot`). -/
def joinDot : List (List Char) → List Char
  | [] => []
  | [f] => f
  | f :: g :: rest => f ++ '.' :: joinDot (g :: rest)

/-- Replacing the first occurrence of `old` by `new`, leaving everything
else unchanged (the spec's description of `editPhone`). -/
def replaceFirstSpec (phones : List String) (old new : String) : List String :=
  match phones with
  | [] => []
  | p :: ps => if p = old then new :: ps else p :: replaceFirstSpec ps old new

/-! ### Helper lemmas: digits -/

theorem toDigit_digitChar {k : Nat} (hk : k ≤ 9) :
    toDigit (digitChar k) = some k := by
  interval_cases k <;> rfl

theorem digitChar_ne_dot (k : Nat) : digitChar k ≠ '.' := by
  unfold digitChar
  split <;> decide

theorem isDigitChar_ne_dot {c : Char} (h : isDigitChar c = true) : c ≠ '.' := by
  intro heq
  rw [heq] at h
  exact absurd h (by decide)

theorem isDigitChar_iff_mem {c : Char} :
    isDigitChar c = true ↔ c ∈ decimalDigits := by
  unfold isDigitChar toDigit decimalDigits
  split <;> simp_all

/-! ### Helper lemmas: `splitOnDot` -/

theorem splitOnDot_ne_nil (l : List Char) : splitOnDot l ≠ [] := by
  cases l with
  | nil => simp [splitOnDot]
  | cons c cs =>
    unfold splitOnDot
    split
    · simp
    · split <;> simp

theorem splitOnDot_append (xs ys : List Char) (h : '.' ∉ xs) :
    splitOnDot (xs ++ '.' :: ys) = xs :: splitOnDot ys := by
  induction xs with
  | nil => simp [splitOnDot]
  | cons c cs ih =>
    have hc : c ≠ '.' := fun hc => h (hc ▸ List.mem_cons_self c cs)
    have hcs : '.' ∉ cs := fun hm => h (List.mem_cons_of_mem c hm)
    simp only [List.cons_append, splitOnDot, if_neg hc, List.append_eq, ih hcs]

theorem splitOnDot_no_dot (xs : List Char) (h : '.' ∉ xs) :
    splitOnDot xs = [xs] := by
  induction xs with
  | nil => rfl
  | cons c cs ih =>
    have hc : c ≠ '.' := fun hc => h (hc ▸ List.mem_cons_self c cs)
    have hcs : '.' ∉ cs := fun hm => h (List.mem_cons_of_mem c hm)
    simp only [splitOnDot, if_neg hc, ih hcs]

theorem joinDot_splitOnDot (l : List Char) : joinDot (splitOnDot l) = l := by
  induction l with
  | nil => rfl
  | cons c cs ih =>
    unfold splitOnDot
    by_cases hc : c = '.'
    · rw [if_pos hc]
      obtain ⟨f, rest, hfr⟩ : ∃ f rest, splitOnDot cs = f :: rest := by
        cases hsp : splitOnDot cs with
        | nil => exact absurd hsp (splitOnDot_ne_nil cs)
        | cons f rest => exact ⟨f, rest, rfl⟩
      rw [hfr] at ih ⊢
      simpa [joinDot, hc] using ih
    · rw [if_neg hc]
      obtain ⟨f, rest, hfr⟩ : ∃ f rest, splitOnDot cs = f :: rest := by
        cases hsp : splitOnDot cs with
        | nil => exact absurd hsp (splitOnDot_ne_nil cs)
        | cons f rest => exact ⟨f, rest, rfl⟩
      rw [hfr] at ih ⊢
      cases rest with
      | nil => simpa [joinDot] using ih
      | cons g rest' => simpa [joinDot] using ih

theorem splitOnDot_fields_no_dot (l : List Char) :
    ∀ f ∈ splitOnDot l, '.' ∉ f := by
  induction l with
  | nil =>
    intro f hf
    simp [splitOnDot] at hf
    simp [hf]
  | cons c cs ih =>
    intro f hf
    unfold splitOnDot at hf
    by_cases hc : c = '.'
    · rw [if_pos hc] at hf
      rcases List.mem_cons.1 hf with h | h
      · simp [h]
      · exact ih f h
    · rw [if_neg hc] at hf
      obtain ⟨g, rest, hfr⟩ : ∃ g rest, splitOnDot cs = g :: rest := by
        cases hsp : splitOnDot cs with
        | nil => exact absurd hsp (splitOnDot_ne_nil cs)
        | cons g rest => exact ⟨g, rest, rfl⟩
      rw [hfr] at hf
      rcases List.mem_cons.1 hf with h | h
      · subst h
        intro hmem
        rcases List.mem_cons.1 hmem with h' | h'
        · exact hc h'.symm
        · exact ih g (hfr ▸ List.mem_cons_self g rest) h'
      · exact ih f (hfr ▸ List.mem_cons_of_mem g h)

/-! ### Helper lemmas: dates -/

theorem daysInMonth_le_31 (y m : Nat) : daysInMonth y m ≤ 31 := by
  unfold daysInMonth
  split_ifs <;> omega

theorem daysInMonth_ge_28 (y m : Nat) : 28 ≤ daysInMonth y m := by
  unfold daysInMonth
  split_ifs <;> omega

/-- A day valid for its month in one year is valid in any other year,
except day 29 of February. -/
theorem le_daysInMonth_of {d y m : Nat} (y' : Nat) (h : d ≤ daysInMonth y m)
    (hne : ¬(m = 2 ∧ d = 29)) : d ≤ daysInMonth y' m := by
  unfold daysInMonth at h ⊢
  split_ifs at h ⊢ <;> omega

theorem mkDate_eq_ok {y m d : Nat} (h1 : 1 ≤ y) (h2 : y ≤ 9999)
    (h3 : 1 ≤ m) (h4 : m ≤ 12) (h5 : 1 ≤ d) (h6 : d ≤ daysInMonth y m) :
    mkDate y m d = .ok ⟨y, m, d⟩ := by
  unfold mkDate
  rw [if_neg (by omega), if_neg (by omega), if_neg (by omega)]

theorem mkDate_ok_valid {y m d : Nat} {dt : Date}
    (h : mkDate y m d = .ok dt) : isValidDate dt ∧ dt = ⟨y, m, d⟩ := by
  unfold mkDate at h
  split_ifs at h with h1 h2 h3
  any_goals cases h
  refine ⟨?_, rfl⟩
  unfold isValidDate
  dsimp only
  omega

/-! ### Helper lemmas: padded rendering parses back -/

theorem pad2_no_dot (n : Nat) : '.' ∉ pad2 n := by
  intro h
  rcases List.mem_cons.1 h with h' | h'
  · exact digitChar_ne_dot _ h'.symm
  · rcases List.mem_cons.1 h' with h'' | h''
    · exact digitChar_ne_dot _ h''.symm
    · simp at h''

theorem pad4_no_dot (n : Nat) : '.' ∉ pad4 n := by
  intro h
  simp only [pad4, List.mem_cons, List.not_mem_nil, or_false] at h
  rcases h with h | h | h | h <;> exact digitChar_ne_dot _ h.symm

theorem dayVal_pad2 {d : Nat} (h1 : 1 ≤ d) (h2 : d ≤ 31) :
    dayVal (pad2 d) = some d := by
  have ha : toDigit (digitChar (d / 10)) = some (d / 10) :=
    toDigit_digitChar (by omega)
  have hb : toDigit (digitChar (d % 10)) = some (d % 10) :=
    toDigit_digitChar (by omega)
  have hd : 10 * (d / 10) + d % 10 = d := by omega
  simp only [pad2, dayVal, ha, hb, hd]
  rw [if_pos ⟨h1, h2⟩]

theorem monthVal_pad2 {m : Nat} (h1 : 1 ≤ m) (h2 : m ≤ 12) :
    monthVal (pad2 m) = some m := by
  have ha : toDigit (digitChar (m / 10)) = some (m / 10) :=
    toDigit_digitChar (by omega)
  have hb : toDigit (digitChar (m % 10)) = some (m % 10) :=
    toDigit_digitChar (by omega)
  have hm : 10 * (m / 10) + m % 10 = m := by omega
  simp only [pad2, monthVal, ha, hb, hm]
  rw [if_pos ⟨h1, h2⟩]

theorem yearVal_pad4 {y : Nat} (h : y ≤ 9999) :
    yearVal (pad4 y) = some y := by
  have h1 : toDigit (digitChar (y / 1000)) = some (y / 1000) :=
    toDigit_digitChar (by omega)
  have h2 : toDigit (digitChar (y / 100 % 10)) = some (y / 100 % 10) :=
    toDigit_digitChar (by omega)
  have h3 : toDigit (digitChar (y / 10 % 10)) = some (y / 10 % 10) :=
    toDigit_digitChar (by omega)
  have h4 : toDigit (digitChar (y % 10)) = some (y % 10) :=
    toDigit_digitChar (by omega)
  have hy : 1000 * (y / 1000) + 100 * (y / 100 % 10) + 10 * (y / 10 % 10)
      + y % 10 = y := by omega
  simp only [pad4, yearVal, h1, h2, h3, h4, hy]

/-! ### Helper lemmas: the birthday query -/

/-- On a record whose birthday (if any) is a valid non-Feb-29 date, the
loop body computes exactly the spec's entry, raising nothing. -/
theorem processRecord_eq (today : Date) (w : Nat) (r : Record)
    (hT : isValidDate today) (hY : today.year < 9999)
    (hb : ∀ b, r.birthday = some b →
      isValidDate b ∧ ¬(b.month = 2 ∧ b.day = 29)) :
    processRecord today w r = .ok (upcomingEntrySpec today w r) := by
  cases hbd : r.birthday with
  | none => simp [processRecord, upcomingEntrySpec, hbd]
  | some b =>
    obtain ⟨hv, hf⟩ := hb b hbd
    obtain ⟨hy1, hy2, hm1, hm2, hd1, hd2⟩ := hv
    have hT1 : 1 ≤ today.year := hT.1
    have h1 : mkDate today.year b.month b.day
        = .ok ⟨today.year, b.month, b.day⟩ :=
      mkDate_eq_ok hT1 (by omega) hm1 hm2 hd1 (le_daysInMonth_of _ hd2 hf)
    have h2 : mkDate (today.year + 1) b.month b.day
        = .ok ⟨today.year + 1, b.month, b.day⟩ :=
      mkDate_eq_ok (by omega) (by omega) hm1 hm2 hd1
        (le_daysInMonth_of _ hd2 hf)
    simp only [processRecord, upcomingEntrySpec, hbd, h1]
    by_cases hlt : dateLT ⟨today.year, b.month, b.day⟩ today = true
    · simp only [hlt, if_true, h2]
      split_ifs <;> rfl
    · have hlt' : dateLT ⟨today.year, b.month, b.day⟩ today = false := by
        revert hlt
        cases dateLT ⟨today.year, b.month, b.day⟩ today <;> simp
      simp only [hlt', Bool.false_eq_true, if_false]
      split_ifs <;> rfl

/-! ### Helper lemmas: field parsers versus field descriptions -/

theorem dayVal_eq_some_iff {xs : List Char} {v : Nat} :
    dayVal xs = some v ↔ dayField xs v := by
  unfold dayField
  match xs with
  | [] =>
    simp [dayVal, digitsVal]
  | [c] =>
    cases hc : toDigit c with
    | none =>
      simp [dayVal, hc, isDigitChar]
    | some a =>
      have ha : a ≤ 9 := by
        revert hc
        unfold toDigit
        split <;> intro h <;> simp_all <;> omega
      constructor
      · intro h
        simp only [dayVal, hc] at h
        split_ifs at h with h1
        cases h
        refine ⟨by simp [isDigitChar, hc], by simp [digitsVal, hc], ?_⟩
        left
        exact ⟨rfl, h1, by omega⟩
      · rintro ⟨hdig, hval, hshape⟩
        simp only [digitsVal, List.foldl_cons, List.foldl_nil, hc,
          Option.getD_some, Nat.mul_zero, Nat.zero_add] at hval
        subst hval
        rcases hshape with ⟨_, h1, _⟩ | ⟨hlen, _, _⟩
        · simp [dayVal, hc, h1]
        · simp at hlen
  | [c1, c2] =>
    cases hc1 : toDigit c1 with
    | none =>
      simp [dayVal, hc1, isDigitChar]
    | some a =>
      cases hc2 : toDigit c2 with
      | none =>
        simp [dayVal, hc1, hc2, isDigitChar]
      | some b =>
        constructor
        · intro h
          simp only [dayVal, hc1, hc2] at h
          split_ifs at h with h1
          cases h
          refine ⟨by simp [isDigitChar, hc1, hc2], ?_, ?_⟩
          · simp [digitsVal, hc1, hc2]
          · right
            exact ⟨rfl, h1.1, h1.2⟩
        · rintro ⟨hdig, hval, hshape⟩
          simp only [digitsVal, List.foldl_cons, List.foldl_nil, hc1, hc2,
            Option.getD_some, Nat.mul_zero, Nat.zero_add] at hval
          subst hval
          rcases hshape with ⟨hlen, _, _⟩ | ⟨_, h1, h2⟩
          · simp at hlen
          · simp [dayVal, hc1, hc2]
            exact ⟨h1, h2⟩
  | c1 :: c2 :: c3 :: rest =>
    simp only [dayVal]
    constructor
    · intro h
      cases h
    · rintro ⟨_, _, hshape⟩
      rcases hshape with ⟨hlen, _, _⟩ | ⟨hlen, _, _⟩ <;> simp at hlen

theorem monthVal_eq_some_iff {xs : List Char} {v : Nat} :
    monthVal xs = some v ↔ monthField xs v := by
  unfold monthField
  match xs with
  | [] =>
    simp [monthVal, digitsVal]
  | [c] =>
    cases hc : toDigit c with
    | none =>
      simp [monthVal, hc, isDigitChar]
    | some a =>
      have ha : a ≤ 9 := by
        revert hc
        unfold toDigit
        split <;> intro h <;> simp_all <;> omega
      constructor
      · intro h
        simp only [monthVal, hc] at h
        split_ifs at h with h1
        cases h
        refine ⟨by simp [isDigitChar, hc], by simp [digitsVal, hc], ?_⟩
        left
        exact ⟨rfl, h1, by omega⟩
      · rintro ⟨hdig, hval, hshape⟩
        simp only [digitsVal, List.foldl_cons, List.foldl_nil, hc,
          Option.getD_some, Nat.mul_zero, Nat.zero_add] at hval
        subst hval
        rcases hshape with ⟨_, h1, _⟩ | ⟨hlen, _, _⟩
        · simp [monthVal, hc, h1]
        · simp at hlen
  | [c1, c2] =>
    cases hc1 : toDigit c1 with
    | none =>
      simp [monthVal, hc1, isDigitChar]
    | some a =>
      cases hc2 : toDigit c2 with
      | none =>
        simp [monthVal, hc1, hc2, isDigitChar]
      | some b =>
        constructor
        · intro h
          simp only [monthVal, hc1, hc2] at h
          split_ifs at h with h1
          cases h
          refine ⟨by simp [isDigitChar, hc1, hc2], ?_, ?_⟩
          · simp [digitsVal, hc1, hc2]
          · right
            exact ⟨rfl, h1.1, h1.2⟩
        · rintro ⟨hdig, hval, hshape⟩
          simp only [digitsVal, List.foldl_cons, List.foldl_nil, hc1, hc2,
            Option.getD_some, Nat.mul_zero, Nat.zero_add] at hval
          subst hval
          rcases hshape with ⟨hlen, _, _⟩ | ⟨_, h1, h2⟩
          · simp at hlen
          · simp [monthVal, hc1, hc2]
            exact ⟨h1, h2⟩
  | c1 :: c2 :: c3 :: rest =>
    simp only [monthVal]
    constructor
    · intro h
      cases h
    · rintro ⟨_, _, hshape⟩
      rcases hshape with ⟨hlen, _, _⟩ | ⟨hlen, _, _⟩ <;> simp at hlen

theorem yearVal_eq_some_iff {xs : List Char} {v : Nat} :
    yearVal xs = some v ↔ yearField xs v := by
  unfold yearField
  match xs with
  | [] => simp [yearVal]
  | [c1] => simp [yearVal]
  | [c1, c2] => simp [yearVal]
  | [c1, c2, c3] => simp [yearVal]
  | [c1, c2, c3, c4] =>
    cases hc1 : toDigit c1 with
    | none => simp [yearVal, hc1, isDigitChar]
    | some a =>
      cases hc2 : toDigit c2 with
      | none => simp [yearVal, hc1, hc2, isDigitChar]
      | some b =>
        cases hc3 : toDigit c3 with
        | none => simp [yearVal, hc1, hc2, hc3, isDigitChar]
        | some c =>
          cases hc4 : toDigit c4 with
          | none => simp [yearVal, hc1, hc2, hc3, hc4, isDigitChar]
          | some d =>
            simp only [yearVal, hc1, hc2, hc3, hc4, Option.some_inj]
            constructor
            · intro h
              refine ⟨by simp [isDigitChar, hc1, hc2, hc3, hc4], rfl, ?_⟩
              simp only [digitsVal, List.foldl_cons, List.foldl_nil,
                hc1, hc2, hc3, hc4, Option.getD_some]
              omega
            · rintro ⟨hdig, _, hval⟩
              simp only [digitsVal, List.foldl_cons, List.foldl_nil,
                hc1, hc2, hc3, hc4, Option.getD_some] at hval
              omega
  | c1 :: c2 :: c3 :: c4 :: c5 :: rest =>
    simp only [yearVal]
    constructor
    · intro h
      cases h
    · rintro ⟨_, hlen, _⟩
      simp at hlen

/-! ### Helper lemmas: `makeBirthday` acceptance -/

/-- C3 (amended): `makeBirthday` accepts exactly the strings of the form
day.month.year in which the day has one digit denoting 1..9 or two
digits denoting 1..31, the month has one digit denoting 1..9 or two
digits denoting 1..12, the year has exactly four digits, and the three
values form a real calendar date — `strptime`'s `%d` and `%m` do not
require a leading zero, so single-digit days and months are accepted,
contrary to the claim's strict 2-digit pattern; everything else fails
with the `InvalidFormat` `ValueError`. -/
theorem C3_birthday_parse_lenient {s : String} :
    (∃ dt, makeBirthday s = .ok dt) ↔ birthdayAccepts s := by
  constructor
  · rintro ⟨dt, h⟩
    unfold makeBirthday at h
    rcases hsp : splitOnDot s.data with _ | ⟨f1, _ | ⟨f2, _ | ⟨f3, _ | ⟨f4, rest⟩⟩⟩⟩
    all_goals rw [hsp] at h
    · cases h
    · cases h
    · cases h
    · dsimp only at h
      cases hd : dayVal f1 with
      | none => rw [hd] at h; cases h
      | some d =>
        cases hm : monthVal f2 with
        | none => rw [hd, hm] at h; cases h
        | some m =>
          cases hy : yearVal f3 with
          | none => rw [hd, hm, hy] at h; cases h
          | some y =>
            rw [hd, hm, hy] at h
            dsimp only at h
            cases hk : mkDate y m d with
            | error e => rw [hk] at h; cases h
            | ok dt' =>
              obtain ⟨hval, hdt⟩ := mkDate_ok_valid hk
              subst hdt
              have hdata : s.data = f1 ++ '.' :: (f2 ++ '.' :: f3) := by
                conv_lhs => rw [← joinDot_splitOnDot s.data]
                rw [hsp]
                simp [joinDot]
              exact ⟨f1, f2, f3, d, m, y, hdata,
                dayVal_eq_some_iff.1 hd, monthVal_eq_some_iff.1 hm,
                yearVal_eq_some_iff.1 hy, hval⟩
    · cases h
  · rintro ⟨ds, ms, ys, d, m, y, hdata, hday, hmon, hyear, hval⟩
    have hds : '.' ∉ ds := fun hmem => absurd (hday.1 '.' hmem) (by decide)
    have hms : '.' ∉ ms := fun hmem => absurd (hmon.1 '.' hmem) (by decide)
    have hys : '.' ∉ ys := fun hmem => absurd (hyear.1 '.' hmem) (by decide)
    unfold isValidDate at hval
    dsimp only at hval
    obtain ⟨h1, h2, h3, h4, h5, h6⟩ := hval
    refine ⟨⟨y, m, d⟩, ?_⟩
    unfold makeBirthday
    rw [hdata, splitOnDot_append _ _ hds, splitOnDot_append _ _ hms,
      splitOnDot_no_dot _ hys]
    dsimp only
    rw [dayVal_eq_some_iff.2 hday, monthVal_eq_some_iff.2 hmon,
      yearVal_eq_some_iff.2 hyear]
    dsimp only
    rw [mkDate_eq_ok h1 h2 h3 h4 h5 h6]

/-! ### Helper lemmas: the `change` handler loop -/

theorem changeLoop_mem {phones : List String} {old name : String}
    (h : old ∈ phones) :
    changeLoop phones old name = .error .attributeError := by
  induction phones with
  | nil => cases h
  | cons p ps ih =>
    unfold changeLoop
    by_cases hp : p = old
    · rw [if_pos hp]
    · rw [if_neg hp]
      rcases List.mem_cons.1 h with h' | h'
      · exact absurd h'.symm hp
      · exact ih h'

/-- The birthday query agrees with its specification on every book whose
birthdays are valid dates other than February 29 (induction helper for
the C1 theorem). -/
theorem upcoming_eq_spec (today : Date) (w : Nat) (hT : isValidDate today)
    (hY : today.year < 9999) :
    ∀ book : Book,
      (∀ r ∈ book, ∀ b, r.birthday = some b →
        isValidDate b ∧ ¬(b.month = 2 ∧ b.day = 29)) →
      get_upcoming_birthdays book today w
        = .ok (upcomingBirthdaysSpec book today w) := by
  intro book
  induction book with
  | nil => intro _; rfl
  | cons r rest ih =>
    intro hB
    have hr := processRecord_eq today w r hT hY
      (fun b hb => hB r (List.mem_cons_self r rest) b hb)
    have ih' := ih (fun r' hr' b hb => hB r' (List.mem_cons_of_mem r hr') b hb)
    simp only [get_upcoming_birthdays, hr, ih', upcomingBirthdaysSpec,
      List.filterMap_cons]
    cases upcomingEntrySpec today w r <;> rfl

/-! ### The claims -/

/-- C1 (amended): for every book whose stored birthdays are valid dates
none of which falls on February 29, and every valid `today` with
`today.year < 9999`, `get_upcoming_birthdays` returns (without raising)
exactly the list described by the spec: for each record with a birthday,
this year's occurrence of its month/day, shifted to next year if it fell
before today, included iff the day-difference from today lies in
`[0, windowDays]`, in the book's insertion order, each date formatted
`YYYY-MM-DD`; in particular a record with birthday 01.01.1990 and
today = 2024-12-28 yields the entry ("John", "2025-01-01") for
`windowDays = 7`.  (The unamended claim, quantifying over every book,
fails on Feb-29 birthdays: see the counterexample.) -/
theorem C1_upcoming_birthdays (book : Book) (today : Date) (w : Nat)
    (hT : isValidDate today) (hY : today.year < 9999)
    (hB : ∀ r ∈ book, ∀ b, r.birthday = some b →
      isValidDate b ∧ ¬(b.month = 2 ∧ b.day = 29)) :
    get_upcoming_birthdays book today w
      = .ok (upcomingBirthdaysSpec book today w)
    ∧ get_upcoming_birthdays [⟨"John", [], some ⟨1990, 1, 1⟩⟩]
        ⟨2024, 12, 28⟩ 7 = .ok [("John", "2025-01-01")] :=
  ⟨upcoming_eq_spec today w hT hY book hB, by rfl⟩

/-- C1 witness: the general statement applied to the book
[Ann, birthday 12.06.1990] with today = 2024-06-10 and window 7. -/
theorem C1_upcoming_birthdays_witness :
    get_upcoming_birthdays [⟨"Ann", [], some ⟨1990, 6, 12⟩⟩] ⟨2024, 6, 10⟩ 7
      = .ok (upcomingBirthdaysSpec [⟨"Ann", [], some ⟨1990, 6, 12⟩⟩]
          ⟨2024, 6, 10⟩ 7) :=
  (C1_upcoming_birthdays [⟨"Ann", [], some ⟨1990, 6, 12⟩⟩] ⟨2024, 6, 10⟩ 7
    (by decide) (by decide)
    (by
      intro r hr b hb
      simp only [List.mem_singleton] at hr
      subst hr
      cases hb
      exact ⟨by decide, by decide⟩)).1

/-- C1 counterexample: the claim as stated fails — on a book holding a
Feb-29 birthday and today = 2023-03-10 (a non-leap year),
`get_upcoming_birthdays` raises `ValueError` instead of returning a
result list. -/
theorem C1_counterexample :
    get_upcoming_birthdays [⟨"Feb", [], some ⟨2004, 2, 29⟩⟩] ⟨2023, 3, 10⟩ 7
      = .error (.valueError "day is out of range for month") := by rfl

/-- C2: the claim says a Feb-29 birthday degrades gracefully in a
non-leap year, but the code crashes: with a record whose birthday is
29.02.2000 and today = 2025-01-15 (2025 is not a leap year),
`record.birthday.value.replace(year=today.year)` raises `ValueError`
("day is out of range for month"), so `get_upcoming_birthdays` raises
instead of returning. -/
theorem C2_feb29_crash :
    get_upcoming_birthdays [⟨"Leap", [], some ⟨2000, 2, 29⟩⟩] ⟨2025, 1, 15⟩ 7
      = .error (.valueError "day is out of range for month") := by rfl

/-- C3 counterexample: the claim says any string without a 2-digit day
fails with `InvalidFormat`, but `makeBirthday "1.01.1990"` succeeds
(Python's `strptime` `%d` accepts a single digit), returning the date
1990-01-01. -/
theorem C3_counterexample :
    makeBirthday "1.01.1990" = .ok ⟨1990, 1, 1⟩ := by rfl

/-- C4: `makePhone s` succeeds (returning the string itself, so the
rendered value equals `s`) iff `s` is exactly 10 characters, all decimal
digits, and fails with the `InvalidFormat` `ValueError` otherwise. -/
theorem C4_makePhone (s : String) :
    (makePhone s = .ok s
      ↔ s.data.length = 10 ∧ ∀ c ∈ s.data, c ∈ decimalDigits)
    ∧ (¬(s.data.length = 10 ∧ ∀ c ∈ s.data, c ∈ decimalDigits) →
        makePhone s = .error (.valueError "Phone number must be 10 digits")) := by
  have hval : phone_is_valid s = true
      ↔ (s.data.length = 10 ∧ ∀ c ∈ s.data, c ∈ decimalDigits) := by
    unfold phone_is_valid
    simp only [Bool.and_eq_true, beq_iff_eq, List.all_eq_true]
    constructor
    · rintro ⟨h1, h2⟩
      exact ⟨h1, fun c hc => isDigitChar_iff_mem.1 (h2 c hc)⟩
    · rintro ⟨h1, h2⟩
      exact ⟨h1, fun c hc => isDigitChar_iff_mem.2 (h2 c hc)⟩
  constructor
  · constructor
    · intro h
      refine hval.1 ?_
      unfold makePhone at h
      split_ifs at h with hv
      exact hv
    · intro hc
      unfold makePhone
      rw [if_pos (hval.2 hc)]
  · intro hc
    unfold makePhone
    rw [if_neg (fun hv => hc (hval.1 hv))]

/-- C4 witness: the theorem applied to the 11-character string
"12345678901" (too long), discharging the failure hypothesis. -/
theorem C4_makePhone_witness :
    makePhone "12345678901"
      = .error (.valueError "Phone number must be 10 digits") :=
  (C4_makePhone "12345678901").2 (by decide)

/-- C5: every string of the shape DD.MM.YYYY (two-digit day, two-digit
month, four-digit year) denoting a real calendar date parses
successfully, and rendering the stored date through `%d.%m.%Y`
reproduces the string exactly. -/
theorem C5_birthday_roundtrip (s : String) (d m y : Nat)
    (hs : s.data = pad2 d ++ '.' :: (pad2 m ++ '.' :: pad4 y))
    (hv : isValidDate ⟨y, m, d⟩) :
    makeBirthday s = .ok ⟨y, m, d⟩ ∧ renderBirthday ⟨y, m, d⟩ = s := by
  unfold isValidDate at hv
  dsimp only at hv
  obtain ⟨hy1, hy2, hm1, hm2, hd1, hd2⟩ := hv
  have hd31 : d ≤ 31 := le_trans hd2 (daysInMonth_le_31 y m)
  constructor
  · unfold makeBirthday
    rw [hs, splitOnDot_append _ _ (pad2_no_dot d),
      splitOnDot_append _ _ (pad2_no_dot m), splitOnDot_no_dot _ (pad4_no_dot y)]
    dsimp only
    rw [dayVal_pad2 hd1 hd31, monthVal_pad2 hm1 hm2, yearVal_pad4 hy2]
    dsimp only
    rw [mkDate_eq_ok hy1 hy2 hm1 hm2 hd1 hd2]
  · unfold renderBirthday
    rw [← hs]

/-- C5 witness: the round-trip at "05.06.1990". -/
theorem C5_birthday_roundtrip_witness :
    makeBirthday "05.06.1990" = .ok ⟨1990, 6, 5⟩
      ∧ renderBirthday ⟨1990, 6, 5⟩ = "05.06.1990" :=
  C5_birthday_roundtrip "05.06.1990" 5 6 1990 (by decide) (by decide)

/-- C6: with a valid new number, `edit_phone` replaces the first phone
equal to `old` and leaves all others unchanged; when no phone equals
`old` the list is returned unchanged with no error, whatever the new
number is; in particular editing "2222222222" to "3333333333" on
["2222222222"] leaves exactly ["3333333333"]. -/
theorem C6_edit_phone :
    (∀ phones old new, phone_is_valid new = true →
      edit_phone phones old new = .ok (replaceFirstSpec phones old new))
    ∧ (∀ phones old new, (∀ p ∈ phones, p ≠ old) →
      edit_phone phones old new = .ok phones)
    ∧ edit_phone ["2222222222"] "2222222222" "3333333333"
        = .ok ["3333333333"] := by
  refine ⟨?_, ?_, by rfl⟩
  · intro phones old new hv
    induction phones with
    | nil => rfl
    | cons p ps ih =>
      unfold edit_phone replaceFirstSpec
      by_cases hp : p = old
      · rw [if_pos hp, if_pos hp]
        unfold makePhone
        rw [if_pos hv]
      · rw [if_neg hp, if_neg hp, ih]
  · intro phones old new h
    induction phones with
    | nil => rfl
    | cons p ps ih =>
      unfold edit_phone
      have hp : p ≠ old := h p (List.mem_cons_self p ps)
      rw [if_neg hp, ih (fun q hq => h q (List.mem_cons_of_mem p hq))]

/-- C6 witness: replacement at ["1111111111"] with a valid new number,
and the no-match no-op on the same list. -/
theorem C6_edit_phone_witness :
    edit_phone ["1111111111"] "1111111111" "2222222222"
      = .ok (replaceFirstSpec ["1111111111"] "1111111111" "2222222222")
    ∧ edit_phone ["1111111111"] "9999999999" "2222222222"
      = .ok ["1111111111"] :=
  ⟨C6_edit_phone.1 ["1111111111"] "1111111111" "2222222222" (by decide),
   C6_edit_phone.2.1 ["1111111111"] "9999999999" "2222222222" (by decide)⟩

/-- C7: `remove_phone` removes exactly the phones equal to `raw`: the
result is a subsequence of the original (relative order preserved),
contains no phone equal to `raw`, keeps every other phone with its
multiplicity, and is the whole unchanged list when nothing matches; in
particular on ["1111111111","2222222222"] removing "1111111111" leaves
exactly ["2222222222"]. -/
theorem C7_remove_phone :
    (∀ phones raw,
      (remove_phone phones raw).Sublist phones
      ∧ (∀ p ∈ remove_phone phones raw, p ≠ raw)
      ∧ (∀ p, p ≠ raw → (remove_phone phones raw).count p = phones.count p)
      ∧ (raw ∉ phones → remove_phone phones raw = phones))
    ∧ remove_phone ["1111111111", "2222222222"] "1111111111"
        = ["2222222222"] := by
  refine ⟨?_, by rfl⟩
  intro phones raw
  refine ⟨List.filter_sublist phones, ?_, ?_, ?_⟩
  · intro p hp
    have := (List.mem_filter.1 hp).2
    simpa using this
  · intro p hp
    exact List.count_filter (by simpa using hp)
  · intro h
    apply List.filter_eq_self.2
    intro a ha
    have hne : a ≠ raw := fun heq => h (heq ▸ ha)
    simpa using hne

/-- C7 witness: the count-preservation and no-op parts applied at
concrete lists. -/
theorem C7_remove_phone_witness :
    (remove_phone ["5555555555"] "7777777777").count "5555555555"
      = (["5555555555"] : List String).count "5555555555"
    ∧ remove_phone ["5555555555"] "7777777777" = ["5555555555"] :=
  ⟨((C7_remove_phone.1 ["5555555555"] "7777777777").2.2.1 "5555555555"
      (by decide)),
   ((C7_remove_phone.1 ["5555555555"] "7777777777").2.2.2 (by decide))⟩

/-- C8: deleting a name not present in the book leaves the book
unchanged and raises nothing, and finding such a name returns absent
(`None`) rather than an error. -/
theorem C8_delete_find (book : Book) (name : String)
    (h : ∀ r ∈ book, r.name ≠ name) :
    bookDelete book name = book ∧ bookFind book name = none := by
  have hany : book.any (fun r => r.name == name) = false := by
    rw [List.any_eq_false]
    intro r hr
    simpa using h r hr
  constructor
  · unfold bookDelete
    simp only [hany, Bool.false_eq_true, if_false]
  · unfold bookFind
    apply List.find?_eq_none.2
    intro r hr
    simpa using h r hr

/-- C8 witness: the theorem applied to a one-record book and the absent
name "nonexistent". -/
theorem C8_delete_find_witness :
    bookDelete [⟨"Bob", ["1234567890"], none⟩] "nonexistent"
      = [⟨"Bob", ["1234567890"], none⟩]
    ∧ bookFind [⟨"Bob", ["1234567890"], none⟩] "nonexistent" = none :=
  C8_delete_find [⟨"Bob", ["1234567890"], none⟩] "nonexistent" (by decide)

/-- C9: when the book has a record under `name` whose phone list
contains `old`, the `change` handler reaches
`record.phones.remove_phone(phone)` — an attribute a Python `list` does
not have — so it raises `AttributeError`, which `input_error` (catching
only `ValueError`, `KeyError`, `IndexError`) does not catch: the wrapped
handler propagates the error and never reaches its success path, so the
phone is never replaced. -/
theorem C9_change_contact_attribute (book : Book) (name old new : String)
    (r : Record) (h1 : bookFind book name = some r) (h2 : old ∈ r.phones) :
    inputError (change_contact [name, old, new] book)
      = .error .attributeError := by
  unfold change_contact
  rw [if_neg (by simp)]
  dsimp only
  rw [h1]
  dsimp only
  rw [changeLoop_mem h2]
  rfl

/-- C9 witness: the theorem applied to the book [Bob with phone
"1234567890"] and the change command for that phone. -/
theorem C9_change_contact_attribute_witness :
    inputError (change_contact ["Bob", "1234567890", "0987654321"]
        [⟨"Bob", ["1234567890"], none⟩])
      = .error .attributeError :=
  C9_change_contact_attribute [⟨"Bob", ["1234567890"], none⟩] "Bob"
    "1234567890" "0987654321" ⟨"Bob", ["1234567890"], none⟩
    (by decide) (by decide)

/-- C10: every `Record` operation preserves the invariant that each
stored phone is a valid 10-digit string — construction starts with no
phones, `add_phone` and `edit_phone` only insert values validated by
`Phone`, and `remove_phone` only removes. -/
theorem C10_phones_invariant :
    (∀ name r, mkRecord name = .ok r → PhonesInv r.phones)
    ∧ (∀ phones s phones', add_phone phones s = .ok phones' →
        PhonesInv phones → PhonesInv phones')
    ∧ (∀ phones s, PhonesInv phones → PhonesInv (remove_phone phones s))
    ∧ (∀ phones o n phones', edit_phone phones o n = .ok phones' →
        PhonesInv phones → PhonesInv phones') := by
  refine ⟨?_, ?_, ?_, ?_⟩
  · intro name r h
    unfold mkRecord at h
    split_ifs at h
    cases h
    intro p hp
    cases hp
  · intro phones s phones' h hinv
    unfold add_phone makePhone at h
    split_ifs at h with hv
    dsimp only at h
    cases h
    intro p hp
    rcases List.mem_append.1 hp with h' | h'
    · exact hinv p h'
    · rw [List.mem_singleton.1 h']
      exact hv
  · intro phones s hinv p hp
    exact hinv p (List.mem_filter.1 hp).1
  · intro phones o n
    induction phones with
    | nil =>
      intro phones' h hinv
      cases h
      intro p hp
      cases hp
    | cons p ps ih =>
      intro phones' h hinv
      unfold edit_phone at h
      by_cases hp : p = o
      · rw [if_pos hp] at h
        unfold makePhone at h
        split_ifs at h with hv
        dsimp only at h
        cases h
        intro q hq
        rcases List.mem_cons.1 hq with h' | h'
        · rw [h']
          exact hv
        · exact hinv q (List.mem_cons_of_mem p h')
      · rw [if_neg hp] at h
        cases hrec : edit_phone ps o n with
        | ok ps' =>
          rw [hrec] at h
          dsimp only at h
          cases h
          intro q hq
          rcases List.mem_cons.1 hq with h' | h'
          · rw [h']
            exact hinv p (List.mem_cons_self p ps)
          · exact ih ps' hrec
              (fun q' hq' => hinv q' (List.mem_cons_of_mem p hq')) q h'
        | error e =>
          rw [hrec] at h
          cases h

/-- C10 witness: the construction, add, remove and edit parts applied at
concrete inputs. -/
theorem C10_phones_invariant_witness :
    PhonesInv (Record.mk "Bob" [] none).phones
    ∧ PhonesInv ["1234567890", "0000000002"]
    ∧ PhonesInv (remove_phone ["1234567890"] "0000000000")
    ∧ PhonesInv ["0000000001"] :=
  ⟨C10_phones_invariant.1 "Bob" ⟨"Bob", [], none⟩ (by rfl),
   C10_phones_invariant.2.1 ["1234567890"] "0000000002"
     ["1234567890", "0000000002"] (by rfl) (by decide),
   C10_phones_invariant.2.2.1 ["1234567890"] "0000000000" (by decide),
   C10_phones_invariant.2.2.2 ["1234567890"] "1234567890" "0000000001"
     ["0000000001"] (by rfl) (by decide)⟩

end Contacts
